import Mathlib

/-!
Verification development for the KataCoffee opening-book generator
(src/cpp/command/genbook.cpp and the headers it includes).

The definitions below are shallow embeddings of the relevant pieces of the
source:

- the recursive splice of MCTS search results into the book
  (expandFromSearchResultRecursively, genbook.cpp lines 746-901),
- the surrounding expandNode driver bookkeeping (lines 903-1057),
- the checkbook integrity walk (testNode, lines 1270-1312),
- the bonus-SGF book-version loop (lines 181-186),
- the iteration loop of MainCmds::genbook (lines 1157-1217),
- the save cadence check (line 1164) and the CLI flag domain (line 71),
- the field list of struct ReportedSearchValues
  (src/cpp/search/reportedsearchvalues.h lines 8-27).

Board positions, hashes and move locations are abstracted to natural
numbers; the canonical-hash computation, the legality oracle and the
neural-net policy are parameters of the embedding (SpliceEnv), since they
live outside the spliced control flow being verified.  Raw policies and
MCTS selection values are rationals standing for the C++ floating-point
values.  The warning paths for illegal moves inside the splice
(genbook.cpp lines 824-832 and 849-858) are not modelled: every claim
below quantifies over legal expansions only.
-/

/-- An MCTS search tree as read back by the splice: node identity (standing
for the SearchNode pointer, shared ids model graph-search transpositions),
its visit count, and its children as (move location, play-selection value,
subtree) triples. -/
inductive SearchTree where
  | mk (id : Nat) (visits : Nat) (children : List (Nat × ℚ × SearchTree))

def SearchTree.id : SearchTree → Nat
  | .mk i _ _ => i

def SearchTree.visits : SearchTree → Nat
  | .mk _ v _ => v

def SearchTree.children : SearchTree → List (Nat × ℚ × SearchTree)
  | .mk _ _ c => c

/-- One edge of the book: parent canonical hash, canonical move location,
child canonical hash, and the raw policy recorded on the edge by
playAndAddMove. -/
structure BookEdge where
  parent : Nat
  moveLoc : Nat
  child : Nat
  rawPolicy : ℚ
deriving DecidableEq

/-- The state mutated by one expansion: the book's node set and edge set,
the log of thisValuesNotInBook overwrites (book hash, search node id) made
through setNodeThisValuesFromFinishedSearch, the nodesHashesToSearch and
nodesHashesToUpdate sets, and the per-call searchNodesRecursedOn set. -/
structure SpliceState where
  bookNodes : List Nat
  bookEdges : List BookEdge
  tvWrites : List (Nat × Nat)
  toSearch : List Nat
  toUpdate : List Nat
  visited : List Nat
deriving DecidableEq

/-- Fixed context of one expansion: the minTreeVisitsToRecord config value,
the canonical hash of the position reached by playing a move from a parent
position (computed by playAndAddMove via getHashAndSymmetry), the
recursiveValues().visits of each book node (not modified during a splice),
and the full-symmetry neural-net policy at each searched position, indexed
by the search node id and the move location. -/
structure SpliceEnv where
  minTreeVisitsToRecord : Nat
  childHashOf : Nat → Nat → Nat
  rvVisits : Nat → Nat
  policyAt : Nat → Nat → ℚ

/-- std::set insertion. -/
def insertIfAbsent (x : Nat) (l : List Nat) : List Nat :=
  if x ∈ l then l else x :: l

/-- SymBookNode.isMoveInBook on the embedded edge list. -/
def isMoveInBook (edges : List BookEdge) (parentHash moveLoc : Nat) : Bool :=
  edges.any (fun e => e.parent == parentHash && e.moveLoc == moveLoc)

/-- SymBookNode.follow on the embedded edge list (0 when absent; the source
only calls it after isMoveInBook succeeded). -/
def followChild (edges : List BookEdge) (parentHash moveLoc : Nat) : Nat :=
  match edges.find? (fun e => e.parent == parentHash && e.moveLoc == moveLoc) with
  | some e => e.child
  | none => 0

/-- SymBookNode.numUniqueMovesInBook: the number of distinct canonical
moves recorded at a node. -/
def numUniqueMovesInBook (edges : List BookEdge) (h : Nat) : Nat :=
  (((edges.filter (fun e => e.parent == h)).map (fun e => e.moveLoc)).dedup).length

/-- The best-move scan of genbook.cpp lines 780-789: start from the first
play-selection entry and replace it only on a strictly greater value, so
the first maximum wins. -/
def bestLocOfChildren : List (Nat × ℚ × SearchTree) → Nat
  | [] => 0
  | c :: cs => (cs.foldl (fun best d => if d.2.1 > best.2 then (d.1, d.2.1) else best)
      (c.1, c.2.1)).1

/-- The per-child body of the loop in expandFromSearchResultRecursively
(genbook.cpp lines 819-877), i.e. the part executed under bookMutex: either
follow an existing edge (lines 822-841) or playAndAddMove a new one (lines
843-876).  Returns the updated state, the child's book hash, and whether an
edge was added here.  Note that the raw policy stored on a new edge is the
full-symmetry policy of the parent's best move bestLoc (line 810), not of
the child's own move. -/
def recordChild (env : SpliceEnv) (parentHash parentId bestLoc : Nat)
    (st : SpliceState) (moveLoc : Nat) (childTree : SearchTree) :
    SpliceState × Nat × Bool :=
  let rawPolicy := env.policyAt parentId bestLoc
  if isMoveInBook st.bookEdges parentHash moveLoc then
    let childHash := followChild st.bookEdges parentHash moveLoc
    if numUniqueMovesInBook st.bookEdges childHash = 0 ∧
        env.rvVisits childHash < childTree.visits then
      ({ st with tvWrites := st.tvWrites ++ [(childHash, childTree.id)] }, childHash, false)
    else
      (st, childHash, false)
  else
    let childHash := env.childHashOf parentHash moveLoc
    let st1 : SpliceState := { st with
      bookNodes := if childHash ∈ st.bookNodes then st.bookNodes else childHash :: st.bookNodes
      bookEdges := st.bookEdges ++ [⟨parentHash, moveLoc, childHash, rawPolicy⟩]
      toUpdate := insertIfAbsent childHash st.toUpdate }
    if childHash ∉ st.bookNodes ∨ (numUniqueMovesInBook st1.bookEdges childHash = 0 ∧
        env.rvVisits childHash < childTree.visits) then
      ({ st1 with tvWrites := st1.tvWrites ++ [(childHash, childTree.id)] }, childHash, true)
    else
      (st1, childHash, true)

/-- One iteration of the child loop (genbook.cpp lines 807-890): children
with enough visits or that are the best move are recorded, and children
with enough visits are recursed on with depth one less (the maxDepth > 0
conjunct at line 880 always holds there, because the entry guard at line
760 already returned when maxDepth was at most 0).  The recursion's return
value is discarded, as at line 883.  The accumulator carries
(state, anythingAdded, anyRecursion). -/
def spliceStep (env : SpliceEnv) (parentHash parentId bestLoc : Nat)
    (recur : SearchTree → Nat → SpliceState → SpliceState × Bool)
    (acc : SpliceState × Bool × Bool) (c : Nat × ℚ × SearchTree) :
    SpliceState × Bool × Bool :=
  if c.1 = bestLoc ∨ env.minTreeVisitsToRecord ≤ (c.2.2).visits then
    let r := recordChild env parentHash parentId bestLoc acc.1 c.1 c.2.2
    if env.minTreeVisitsToRecord ≤ (c.2.2).visits then
      ((recur c.2.2 r.2.1 r.1).1, acc.2.1 || r.2.2, true)
    else
      (r.1, acc.2.1 || r.2.2, acc.2.2)
  else
    acc

/-- The body of expandFromSearchResultRecursively for positive remaining
depth (genbook.cpp lines 762-900): return if this search node was already
recursed on, record it, return if there are no children, process every
child, then insert this node's hash into nodesHashesToUpdate if anything
changed below it and into nodesHashesToSearch if an edge was added here.
Returns whether any child was added directly to this node. -/
def expandFromSearchResultBody (env : SpliceEnv)
    (recur : SearchTree → Nat → SpliceState → SpliceState × Bool)
    (t : SearchTree) (nodeHash : Nat) (st : SpliceState) : SpliceState × Bool :=
  if t.id ∈ st.visited then (st, false) else
  let st0 : SpliceState := { st with visited := t.id :: st.visited }
  if t.children.isEmpty then (st0, false) else
  let bestLoc := bestLocOfChildren t.children
  let r := t.children.foldl (spliceStep env nodeHash t.id bestLoc recur) (st0, false, false)
  let st2 := if r.2.1 || r.2.2 then
      { r.1 with toUpdate := insertIfAbsent nodeHash r.1.toUpdate } else r.1
  let st3 := if r.2.1 then
      { st2 with toSearch := insertIfAbsent nodeHash st2.toSearch } else st2
  (st3, r.2.1)

/-- expandFromSearchResultRecursively (genbook.cpp lines 746-901).  The
fuel argument is the maxDepth parameter: the call at line 1008 passes
maxDepthToRecord, each recursive call at line 883 passes maxDepth - 1, and
the guard at line 760 returns when it reaches 0 (maxDepth is never negative
along this call chain, so a natural number is a faithful model). -/
def expandFromSearchResultRecursively (env : SpliceEnv) (fuel : Nat) :
    SearchTree → Nat → SpliceState → SpliceState × Bool :=
  Nat.rec (motive := fun _ => SearchTree → Nat → SpliceState → SpliceState × Bool)
    (fun _ _ st => (st, false))
    (fun _ ih => expandFromSearchResultBody env ih)
    fuel

/-- findNewMovesAlreadyLocked (genbook.cpp lines 393-414) restricted to the
data the claims need: given the legal move list and the list of moves
already in the book, produce the avoided move list and the
hasAtLeastOneLegalNewMove flag.  On a re-expansion nothing is avoided. -/
def findNewMoves (legalMoves movesInBook : List Nat) (isReExpansion : Bool) :
    List Nat × Bool :=
  (legalMoves.filter (fun m => !isReExpansion && decide (m ∈ movesInBook)),
   legalMoves.any (fun m => !(!isReExpansion && decide (m ∈ movesInBook))))

/-- The outcome of one expandNode call after the splice (genbook.cpp lines
1003-1055): the final state, the anythingAdded flag, the set of hashes that
get a value-refresh search (the loop at lines 1021-1028 runs exactly over
nodesHashesToSearch), the unconditional canReExpand() = false write at line
1041, and the defensive canExpand() = false write at lines 1046-1054, taken
only when nothing was added and this was not a re-expansion. -/
structure ExpandNodeResult where
  state : SpliceState
  anythingAdded : Bool
  refreshedHashes : List Nat
  canReExpandCleared : Bool
  markedCanExpandFalse : Bool
deriving DecidableEq

def expandNodeModel (env : SpliceEnv) (maxDepthToRecord : Nat) (t : SearchTree)
    (nodeHash : Nat) (st : SpliceState) (isReExpansion : Bool) : ExpandNodeResult :=
  let r := expandFromSearchResultRecursively env maxDepthToRecord t nodeHash st
  { state := r.1
    anythingAdded := r.2
    refreshedHashes := r.1.toSearch
    canReExpandCleared := true
    markedCanExpandFalse := !r.2 && !isReExpansion }

/-- The outcome of the preliminary phase of expandNode (genbook.cpp lines
903-955), before any search is run: a failed
getBoardHistoryReachingHere is logged and the node marked canExpand() =
false with an early return (lines 916-929); for books of version at least
2, a canonical-hash mismatch between the stored hash and the hash of the
walked-to position throws a StringError, stopping the run (lines 931-948);
a finished or past-normal-phase position marks canExpand() = false and
returns (lines 950-955); otherwise expansion proceeds. -/
inductive ExpandPrelimOutcome where
  | markDoneHistoryFailure
  | fatalIntegrityError
  | markDoneTerminal
  | proceed
deriving DecidableEq

def expandNodePrelim (historySuc : Bool) (bookVersion storedHash walkedHash : Nat)
    (gameFinished pastNormalPhaseEnd : Bool) : ExpandPrelimOutcome :=
  if historySuc = false then .markDoneHistoryFailure
  else if 2 ≤ bookVersion ∧ walkedHash ≠ storedHash then .fatalIntegrityError
  else if gameFinished = true ∨ pastNormalPhaseEnd = true then .markDoneTerminal
  else .proceed

/-- What checkbook's testNode does for one node (genbook.cpp lines
1270-1312): it logs a warning when the board history cannot be
reconstructed and logs a failure message when the walked-to hash mismatches
the stored hash; it throws nothing and writes nothing to the node, so the
check continues over the remaining nodes either way. -/
structure CheckbookNodeReport where
  loggedHistoryFailure : Bool
  loggedIntegrityFailure : Bool
  fatal : Bool
deriving DecidableEq

def checkbookTestNode (historySuc : Bool) (storedHash walkedHash : Nat) :
    CheckbookNodeReport :=
  { loggedHistoryFailure := !historySuc
    loggedIntegrityFailure := decide (walkedHash ≠ storedHash)
    fatal := false }

/-- The book versions whose hashing rule receives a bonus entry for a
BONUS-commented SGF position: the loop at genbook.cpp line 182 runs
bookVersion from 1 while bookVersion < Book::LATEST_BOOK_VERSION, i.e. over
1, ..., latestBookVersion - 1. -/
def bonusVersionsApplied (latestBookVersion : Nat) : List Nat :=
  List.range' 1 (latestBookVersion - 1)

/-- The keys of the bonusByHash map produced for one BONUS position, where
hashOfVersion v is the canonical hash of that position under book version
v (BookHash::getHashAndSymmetry at genbook.cpp line 183). -/
def bonusByHashKeys (hashOfVersion : Nat → Nat) (latestBookVersion : Nat) : List Nat :=
  (bonusVersionsApplied latestBookVersion).map hashOfVersion

/-- The fields of struct ReportedSearchValues, in declaration order
(src/cpp/search/reportedsearchvalues.h lines 8-27). -/
def reportedSearchValuesFieldNames : List String :=
  ["winValue", "lossValue", "winLossValue", "utility", "weight", "visits"]

/-- Shallow embedding of struct ReportedSearchValues itself: these are the
only data members the header declares. -/
structure ReportedSearchValues where
  winValue : ℚ
  lossValue : ℚ
  winLossValue : ℚ
  utility : ℚ
  weight : ℚ
  visits : Int

/-- The visit cap of the value-refresh search
(searchAndUpdateNodeThisValues, genbook.cpp line 612). -/
def leafSearchMaxVisits (paramsMaxVisits maxVisitsForLeaves : Int) : Int :=
  min paramsMaxVisits maxVisitsForLeaves

/-- The number of nodes requested from the selector on each 0-based
iteration of the expansion loop: genbook.cpp line 1175 asks for
std::min(1 + iteration / 2, numToExpandPerIteration) with integer
division.  The list collects the request of every iteration of the loop at
line 1160. -/
def requestedExpansionCounts (numIterations numToExpandPerIteration : Nat) : List Nat :=
  (List.range numIterations).map
    (fun iteration => min (1 + iteration / 2) numToExpandPerIteration)

/-- The operations of MainCmds::genbook that touch the book, in program
order (genbook.cpp lines 234-1217).  expandIterationsLoop stands for the
whole loop at lines 1157-1208, including its periodic saves. -/
inductive GEvent where
  | loadBook
  | errorBookParamsMismatch
  | overwriteBookParams
  | createNewBookAndSave
  | errorTraceWithIterations
  | setBonusByHash
  | recomputeEverything
  | traceSpliceAndUpdates
  | expandIterationsLoop
  | finalSaveBook
deriving DecidableEq

/-- The sequence of book-touching operations genbook performs, stopping at
the first thrown error: load or create the book (lines 240-363, throwing
when parameters differ and changing them is disallowed, lines 265-292, and
overwriting them in memory when it is allowed, lines 293-317); throw when
both a trace book and a positive iteration count were supplied (lines
365-368); otherwise apply bonuses and recompute (lines 375-376), run the
trace splice or the iteration loop (lines 1059-1208), and save at the end
when anything was asked for (lines 1210-1217). -/
def genbookMainFlow (bookFileExists bookParamsDiffer allowChangingBookParams
    traceBookGiven : Bool) (numIterations : Nat) : List GEvent :=
  if bookFileExists && bookParamsDiffer && !allowChangingBookParams then
    [.loadBook, .errorBookParamsMismatch]
  else
    let pre : List GEvent :=
      if bookFileExists then
        if bookParamsDiffer then [.loadBook, .overwriteBookParams] else [.loadBook]
      else [.createNewBookAndSave]
    if traceBookGiven && decide (0 < numIterations) then
      pre ++ [.errorTraceWithIterations]
    else
      pre ++ [.setBonusByHash, .recomputeEverything] ++
        (if traceBookGiven then [.traceSpliceAndUpdates] else [.expandIterationsLoop]) ++
        (if traceBookGiven || decide (0 < numIterations) then [.finalSaveBook] else [])

/-- The events that mutate the book graph, its bonuses or its persisted
file.  The in-memory parameter overwrite and the initial creation of a
book file where none existed are configuration steps, not mutations of
existing book content. -/
def mutatesBookGraph : GEvent → Bool
  | .setBonusByHash => true
  | .recomputeEverything => true
  | .traceSpliceAndUpdates => true
  | .expandIterationsLoop => true
  | .finalSaveBook => true
  | _ => false

/-- TCLAP::ValueArg with an int payload accepts any integer: the
declaration of saveEveryIterationsArg (genbook.cpp line 71) attaches no
constraint and no lower bound. -/
def cliAcceptsSaveEvery : Int → Bool := fun _ => true

/-- The save-cadence condition at genbook.cpp line 1164, which evaluates
iteration % saveEveryIterations first (the left operand of the
conjunction).  In C++ a remainder by zero is undefined behavior, modelled
as none; for a nonzero divisor the remainder of the nonnegative iteration
counter by saveEveryIterations equals the Nat remainder by its absolute
value. -/
def saveCadenceCheck (iteration : Nat) (saveEveryIterations : Int) : Option Bool :=
  if saveEveryIterations = 0 then none
  else some (decide (iteration % saveEveryIterations.natAbs = 0 ∧ iteration ≠ 0))

/-- The safety property asserted by claim C10, stated over the embedding:
for every flag value the CLI accepts and every expansion-loop iteration of
rank at least 1, the cadence check evaluates without dividing by zero. -/
def saveCadenceNeverDividesByZero : Prop :=
  ∀ v : Int, cliAcceptsSaveEvery v = true →
    ∀ i : Nat, 1 ≤ i → saveCadenceCheck i v ≠ none

/-- Concrete expansion exercising the raw-policy assignment: a search node
with a best child (move 1) and a second recorded child (move 2) whose
full-symmetry policies differ. -/
def envC3 : SpliceEnv :=
  ⟨20, fun p m => p + m + 9, fun _ => 0, fun _ loc => if loc = 1 then 7 else 3⟩

def treeC3 : SearchTree := .mk 100 100 [(1, 10, .mk 101 50 []), (2, 5, .mk 102 50 [])]

def stC3 : SpliceState := ⟨[10], [], [], [], [], []⟩

/-- Claim C3 as stated, at the concrete expansion above: every edge the
splice stores would carry the full-symmetry policy of its own move. -/
def claimStoredPolicyIsOwnMovePolicy : Prop :=
  ∀ e ∈ (expandFromSearchResultRecursively envC3 2 treeC3 10 stC3).1.bookEdges,
    e.rawPolicy = envC3.policyAt treeC3.id e.moveLoc

/-- Concrete expansion exercising the transposition overwrite condition:
the single recorded child (move 5) transposes to book node 20, which
already has one move in the book and fewer recursive visits (3) than the
MCTS child subtree (50). -/
def envC4 : SpliceEnv :=
  ⟨1000, fun p m => if p = 10 && m = 5 then 20 else p + m,
   fun h => if h = 20 then 3 else 0, fun _ _ => 1⟩

def treeC4 : SearchTree := .mk 100 100 [(5, 1, .mk 101 50 [])]

def stC4 : SpliceState := ⟨[10, 20, 30], [⟨20, 7, 30, 1⟩], [], [], [], []⟩

/-- Concrete re-expansion scenario: node 10's only searched move (1) is
already in the book leading to node 11, and the child subtree is too small
to recurse on, so the splice adds nothing. -/
def envC5 : SpliceEnv :=
  ⟨10, fun _ _ => 99, fun h => if h = 11 then 7 else 0, fun _ _ => 1⟩

def treeC5 : SearchTree := .mk 100 50 [(1, 1, .mk 101 5 [])]

def stC5 : SpliceState := ⟨[10, 11], [⟨10, 1, 11, 1⟩], [], [], [], []⟩

/-- Small concrete inputs for instantiating the general theorems. -/
def envW : SpliceEnv := ⟨2, fun p m => p + m + 1, fun _ => 0, fun _ _ => 1⟩

def treeW : SearchTree := .mk 100 3 [(1, 1, .mk 101 3 [])]

def stW : SpliceState := ⟨[7], [], [], [], [], []⟩

def stWv : SpliceState := ⟨[7], [], [], [], [], [100]⟩

def env4w : SpliceEnv := ⟨5, fun p m => p + m + 1, fun _ => 0, fun _ _ => 2⟩

def st4w : SpliceState := ⟨[3], [], [], [], [], []⟩

/-- Claim C1 as stated: a canonical-hash mismatch during expansion of a
version-2-or-later book would be handled non-fatally by genbook (logged,
node marked, expansion returns), while the same mismatch in checkbook
would be fatal. -/
def integrityMismatchGracefulInGenbookFatalInCheckbook : Prop :=
  (∀ v storedHash walkedHash : Nat, 2 ≤ v → walkedHash ≠ storedHash →
    expandNodePrelim true v storedHash walkedHash false false ≠
      ExpandPrelimOutcome.fatalIntegrityError) ∧
  (∀ storedHash walkedHash : Nat, walkedHash ≠ storedHash →
    (checkbookTestNode true storedHash walkedHash).fatal = true)

/-- Invariant used for the searchNodesRecursedOn set: the state's visited
list extends a base list on the left, and is duplicate-free whenever the
base is. -/
def VisitedExt (base : List Nat) (st : SpliceState) : Prop :=
  (∃ l, st.visited = l ++ base) ∧ (base.Nodup → st.visited.Nodup)

theorem foldl_preserve {α β : Type} (P : β → Prop) (f : β → α → β)
    (H : ∀ b a, P b → P (f b a)) :
    ∀ (l : List α) (b : β), P b → P (l.foldl f b) := by
  intro l
  induction l with
  | nil => intro b hb; simpa using hb
  | cons a l ih => intro b hb; simpa using ih (f b a) (H b a hb)

theorem recordChild_visited (env : SpliceEnv) (ph pid b : Nat) (st : SpliceState)
    (m : Nat) (t : SearchTree) :
    (recordChild env ph pid b st m t).1.visited = st.visited := by
  unfold recordChild
  dsimp only
  split
  · split <;> rfl
  · split <;> rfl

theorem numUniqueMovesInBook_append_of_ne (es : List BookEdge) (e : BookEdge) (h : Nat)
    (hne : e.parent ≠ h) :
    numUniqueMovesInBook (es ++ [e]) h = numUniqueMovesInBook es h := by
  unfold numUniqueMovesInBook
  rw [List.filter_append]
  have hb : (e.parent == h) = false := by simpa using hne
  have : List.filter (fun d => d.parent == h) [e] = [] := by
    simp [List.filter, hb]
  rw [this, List.append_nil]

theorem spliceStep_visitedExt (env : SpliceEnv) (ph pid b : Nat)
    (recur : SearchTree → Nat → SpliceState → SpliceState × Bool)
    (hrec : ∀ t h s, VisitedExt s.visited (recur t h s).1)
    (base : List Nat) (acc : SpliceState × Bool × Bool) (c : Nat × ℚ × SearchTree)
    (hacc : VisitedExt base acc.1) :
    VisitedExt base (spliceStep env ph pid b recur acc c).1 := by
  unfold spliceStep
  dsimp only
  split
  · split
    · rcases hacc with ⟨⟨l, hl⟩, hnd⟩
      have hv : (recordChild env ph pid b acc.1 c.1 c.2.2).1.visited = acc.1.visited :=
        recordChild_visited env ph pid b acc.1 c.1 c.2.2
      rcases hrec c.2.2 (recordChild env ph pid b acc.1 c.1 c.2.2).2.1
        (recordChild env ph pid b acc.1 c.1 c.2.2).1 with ⟨⟨l2, hl2⟩, hnd2⟩
      constructor
      · exact ⟨l2 ++ l, by rw [hl2, hv, hl, List.append_assoc]⟩
      · intro hb
        apply hnd2
        rw [hv]
        exact hnd hb
    · rcases hacc with ⟨⟨l, hl⟩, hnd⟩
      constructor
      · exact ⟨l, by rw [recordChild_visited]; exact hl⟩
      · intro hb
        rw [recordChild_visited]
        exact hnd hb
  · exact hacc

theorem expandFromSearchResultBody_visitedExt (env : SpliceEnv)
    (recur : SearchTree → Nat → SpliceState → SpliceState × Bool)
    (hrec : ∀ t h s, VisitedExt s.visited (recur t h s).1)
    (t : SearchTree) (h : Nat) (st : SpliceState) :
    VisitedExt st.visited (expandFromSearchResultBody env recur t h st).1 := by
  unfold expandFromSearchResultBody
  dsimp only
  split
  · exact ⟨⟨[], rfl⟩, fun hh => hh⟩
  case isFalse hmem =>
    split
    · refine ⟨⟨[t.id], rfl⟩, fun hh => ?_⟩
      exact List.nodup_cons.mpr ⟨hmem, hh⟩
    · have hfold : VisitedExt (t.id :: st.visited)
          ((t.children.foldl
            (spliceStep env h t.id (bestLocOfChildren t.children) recur)
            ({ st with visited := t.id :: st.visited }, false, false)).1) := by
        apply foldl_preserve
          (P := fun acc : SpliceState × Bool × Bool => VisitedExt (t.id :: st.visited) acc.1)
        · intro bAcc a hb
          exact spliceStep_visitedExt env h t.id (bestLocOfChildren t.children) recur hrec
            (t.id :: st.visited) bAcc a hb
        · exact ⟨⟨[], rfl⟩, fun hh => hh⟩
      rcases hfold with ⟨⟨l, hl⟩, hnd⟩
      constructor
      · refine ⟨l ++ [t.id], ?_⟩
        split <;> split <;>
          simp only [hl, List.append_assoc, List.singleton_append]
      · intro hb
        have hb2 : (t.id :: st.visited).Nodup := List.nodup_cons.mpr ⟨hmem, hb⟩
        split <;> split <;> exact hnd hb2

theorem expandFromSearchResult_visitedExt (env : SpliceEnv) :
    ∀ (fuel : Nat) (t : SearchTree) (h : Nat) (st : SpliceState),
      VisitedExt st.visited (expandFromSearchResultRecursively env fuel t h st).1 := by
  intro fuel
  induction fuel with
  | zero => intro t h st; exact ⟨⟨[], rfl⟩, fun hh => hh⟩
  | succ f ih =>
      intro t h st
      exact expandFromSearchResultBody_visitedExt env
        (expandFromSearchResultRecursively env f) (fun t2 h2 s2 => ih t2 h2 s2) t h st

/-- C1 counterexample: the claim as stated is false.  At book version 2, a
node whose stored hash is 0 but whose reconstructed move history hashes to
1, genbook's expansion does not log-and-mark-and-return: expandNodePrelim
yields the fatal StringError outcome (genbook.cpp line 946), and
checkbook's testNode does not make the mismatch fatal. -/
theorem integrityMismatchClaim_false :
    ¬ integrityMismatchGracefulInGenbookFatalInCheckbook := by
  intro hclaim
  exact hclaim.1 2 0 1 (by decide) (by decide) (by decide)

/-- C1 (amended): for every node of a version-2-or-later book whose
reconstructed move history yields a canonical hash different from the
stored one, genbook's expansion throws a fatal StringError, while
checkbook logs the same integrity failure and continues checking without
aborting or mutating the node. -/
theorem genbookIntegrityMismatchFatal_checkbookLogs (v s w : Nat) (hv : 2 ≤ v)
    (hne : w ≠ s) :
    expandNodePrelim true v s w false false = ExpandPrelimOutcome.fatalIntegrityError ∧
    (checkbookTestNode true s w).loggedIntegrityFailure = true ∧
    (checkbookTestNode true s w).fatal = false := by
  refine ⟨?_, ?_, rfl⟩
  · simp [expandNodePrelim, hv, hne]
  · simp [checkbookTestNode, hne]

/-- C1 witness: the amended statement at book version 2, stored hash 0,
walked hash 1. -/
theorem genbookIntegrityMismatchFatal_checkbookLogs_witness :
    expandNodePrelim true 2 0 1 false false = ExpandPrelimOutcome.fatalIntegrityError ∧
    (checkbookTestNode true 0 1).loggedIntegrityFailure = true ∧
    (checkbookTestNode true 0 1).fatal = false :=
  genbookIntegrityMismatchFatal_checkbookLogs 2 0 1 (by decide) (by decide)

/-- C2: the bonus loop never covers the latest book version.  For every
value of Book::LATEST_BOOK_VERSION, the loop at genbook.cpp line 182 stops
one short of it, so whenever the latest-version hash of a BONUS position
differs from its hashes under the older versions, that hash is absent from
the bonusByHash key set and a book built at the latest version receives no
bonus for the position. -/
theorem bonusVersionsExcludeLatest (latest : Nat) (hashOfVersion : Nat → Nat)
    (hfresh : ∀ v ∈ bonusVersionsApplied latest, hashOfVersion v ≠ hashOfVersion latest) :
    latest ∉ bonusVersionsApplied latest ∧
    hashOfVersion latest ∉ bonusByHashKeys hashOfVersion latest := by
  constructor
  · intro hmem
    unfold bonusVersionsApplied at hmem
    have := List.mem_range'_1.mp hmem
    omega
  · intro hmem
    rcases List.mem_map.mp hmem with ⟨v, hv, heq⟩
    exact hfresh v hv heq

/-- C2 witness: with the latest book version 2 and version hashes kept
distinct by the identity function, version 2 is not covered and its hash
is not a bonus key. -/
theorem bonusVersionsExcludeLatest_witness :
    2 ∉ bonusVersionsApplied 2 ∧ id 2 ∉ bonusByHashKeys id 2 :=
  bonusVersionsExcludeLatest 2 id (by decide)

/-- C3 counterexample: the claim as stated is false.  In the concrete
expansion of envC3, the second recorded child (move 2, not the best move)
gets the full-symmetry policy of the best move 1, which differs from the
policy of its own move. -/
theorem storedPolicyClaim_false : ¬ claimStoredPolicyIsOwnMovePolicy := by
  unfold claimStoredPolicyIsOwnMovePolicy
  decide

/-- C3 (amended): for every child added to the book during the recursive
splice, the raw policy stored on the new edge is the full-symmetry policy
of the parent's best move bestLoc (genbook.cpp line 810) - identical for
every child added from the same search node and independent of the child's
own move. -/
theorem recordChild_rawPolicy_from_bestLoc (env : SpliceEnv) (ph pid bestLoc : Nat)
    (st : SpliceState) (m : Nat) (t : SearchTree) :
    (recordChild env ph pid bestLoc st m t).1.bookEdges = st.bookEdges ∨
    (recordChild env ph pid bestLoc st m t).1.bookEdges =
      st.bookEdges ++ [⟨ph, m, env.childHashOf ph m, env.policyAt pid bestLoc⟩] := by
  unfold recordChild
  dsimp only
  split
  · split
    · exact Or.inl rfl
    · exact Or.inl rfl
  · split
    · exact Or.inr rfl
    · exact Or.inr rfl

/-- C4 counterexample: the claim as stated is false.  In the concrete
expansion of envC4 a new edge is spliced whose child transposes to book
node 20; node 20 has fewer recursive visits (3) than the MCTS child
subtree (50), so the claim requires its TV to be overwritten, yet no
overwrite is recorded because node 20 already has a move in the book
(genbook.cpp line 867 also requires numUniqueMovesInBook() == 0). -/
theorem transpositionOverwriteClaim_false :
    isMoveInBook stC4.bookEdges 10 5 = false ∧
    envC4.childHashOf 10 5 ∈ stC4.bookNodes ∧
    envC4.rvVisits (envC4.childHashOf 10 5) < 50 ∧
    (expandFromSearchResultRecursively envC4 1 treeC4 10 stC4).1.bookEdges.length =
      stC4.bookEdges.length + 1 ∧
    (expandFromSearchResultRecursively envC4 1 treeC4 10 stC4).1.tvWrites = [] := by
  decide

/-- C4 (amended): during the recursive splice the recorded child's TV is
overwritten from the MCTS child's aggregated stats exactly when either
(for a newly added edge) the child is not a transposition, or the existing
child node has no moves in the book and fewer recursive visits than the
MCTS child's subtree - the latter condition also governing the
already-in-book branch. -/
theorem recordChild_tvOverwrite_iff (env : SpliceEnv) (ph pid bestLoc : Nat)
    (st : SpliceState) (m : Nat) (t : SearchTree)
    (hne : env.childHashOf ph m ≠ ph) :
    (isMoveInBook st.bookEdges ph m = false →
      (recordChild env ph pid bestLoc st m t).1.tvWrites =
        (if env.childHashOf ph m ∉ st.bookNodes ∨
            (numUniqueMovesInBook st.bookEdges (env.childHashOf ph m) = 0 ∧
             env.rvVisits (env.childHashOf ph m) < t.visits)
         then st.tvWrites ++ [(env.childHashOf ph m, t.id)] else st.tvWrites)) ∧
    (isMoveInBook st.bookEdges ph m = true →
      (recordChild env ph pid bestLoc st m t).1.tvWrites =
        (if numUniqueMovesInBook st.bookEdges (followChild st.bookEdges ph m) = 0 ∧
            env.rvVisits (followChild st.bookEdges ph m) < t.visits
         then st.tvWrites ++ [(followChild st.bookEdges ph m, t.id)] else st.tvWrites)) := by
  constructor
  · intro hnib
    have h1 := numUniqueMovesInBook_append_of_ne st.bookEdges
      ⟨ph, m, env.childHashOf ph m, env.policyAt pid bestLoc⟩
      (env.childHashOf ph m) (Ne.symm hne)
    unfold recordChild
    simp only [hnib, Bool.false_eq_true, if_false]
    rw [h1]
    split <;> rfl
  · intro hib
    unfold recordChild
    simp only [hib, if_true]
    split <;> rfl

/-- C4 witness: the amended characterization at a concrete non-transposing
add. -/
theorem recordChild_tvOverwrite_iff_witness :
    (recordChild env4w 3 11 5 st4w 5 (SearchTree.mk 50 6 [])).1.tvWrites =
      (if env4w.childHashOf 3 5 ∉ st4w.bookNodes ∨
          (numUniqueMovesInBook st4w.bookEdges (env4w.childHashOf 3 5) = 0 ∧
           env4w.rvVisits (env4w.childHashOf 3 5) < (SearchTree.mk 50 6 []).visits)
       then st4w.tvWrites ++ [(env4w.childHashOf 3 5, (SearchTree.mk 50 6 []).id)]
       else st4w.tvWrites) :=
  (recordChild_tvOverwrite_iff env4w 3 11 5 st4w 5 (SearchTree.mk 50 6 [])
    (by decide)).1 (by decide)

/-- C5: in re-expansion mode (empty avoid list) at a node all of whose
searched legal moves are already in the book, no edge is added and
canReExpand is cleared as the claim says, but the node's TV is NOT
refreshed: the node's hash enters nodesHashesToSearch only when an edge
was added at it (genbook.cpp lines 897-898), so the refresh loop at lines
1021-1028 skips it - and the assertion at line 1016 that the hash is
always present is violated in this reachable scenario. -/
theorem reexpansionSkipsValueRefresh :
    isMoveInBook stC5.bookEdges 10 1 = true ∧
    (findNewMoves [1] [1] true).1 = [] ∧
    (findNewMoves [1] [1] true).2 = true ∧
    (expandNodeModel envC5 2 treeC5 10 stC5 true).state.bookEdges = stC5.bookEdges ∧
    (expandNodeModel envC5 2 treeC5 10 stC5 true).canReExpandCleared = true ∧
    10 ∉ (expandNodeModel envC5 2 treeC5 10 stC5 true).refreshedHashes ∧
    (expandNodeModel envC5 2 treeC5 10 stC5 true).markedCanExpandFalse = false := by
  decide

/-- C6: struct ReportedSearchValues declares no expectedScore and no
expectedScoreStdev member, although genbook.cpp lines 556 and 560 read
exactly those members of the pruned-root values, so the assignments the
claim describes cannot be made from this struct. -/
theorem reportedSearchValuesLacksScoreFields :
    "expectedScore" ∉ reportedSearchValuesFieldNames ∧
    "expectedScoreStdev" ∉ reportedSearchValuesFieldNames ∧
    "winLossValue" ∈ reportedSearchValuesFieldNames := by
  decide

/-- C7: on every 0-based iteration i of the expansion loop the selector is
asked for exactly min(1 + i / 2, numToExpandPerIteration) nodes, with
integer division. -/
theorem requestedExpansionCount_eq (n cap i : Nat) (h : i < n) :
    (requestedExpansionCounts n cap)[i]? = some (min (1 + i / 2) cap) := by
  simp [requestedExpansionCounts, List.getElem?_map, List.getElem?_range h]

/-- C7 witness: iteration 3 of a 5-iteration run with cap 2. -/
theorem requestedExpansionCount_eq_witness :
    (requestedExpansionCounts 5 2)[3]? = some (min (1 + 3 / 2) 2) :=
  requestedExpansionCount_eq 5 2 3 (by decide)

/-- C8: expandFromSearchResultRecursively is total (it is a plain
recursion on the depth argument, which every recursive call decreases by
one); it returns immediately when the remaining depth is 0 and when the
search node is already in the per-call visited set; the visited set only
grows; and it stays duplicate-free, so no MCTS search node is recursed on
twice within one expansion. -/
theorem expandRecursionGuards (env : SpliceEnv) (fuel : Nat) (t : SearchTree) (h : Nat)
    (st : SpliceState) :
    expandFromSearchResultRecursively env 0 t h st = (st, false) ∧
    (t.id ∈ st.visited →
      expandFromSearchResultRecursively env (fuel + 1) t h st = (st, false)) ∧
    (∃ l, (expandFromSearchResultRecursively env fuel t h st).1.visited = l ++ st.visited) ∧
    (st.visited.Nodup →
      ((expandFromSearchResultRecursively env fuel t h st).1.visited).Nodup) := by
  refine ⟨rfl, ?_, (expandFromSearchResult_visitedExt env fuel t h st).1,
    (expandFromSearchResult_visitedExt env fuel t h st).2⟩
  intro hmem
  show expandFromSearchResultBody env (expandFromSearchResultRecursively env fuel) t h st
    = (st, false)
  unfold expandFromSearchResultBody
  rw [if_pos hmem]

/-- C8 witness: the guard equations and the duplicate-freeness at a
concrete one-child search tree. -/
theorem expandRecursionGuards_witness :
    expandFromSearchResultRecursively envW 0 treeW 7 stW = (stW, false) ∧
    expandFromSearchResultRecursively envW 1 treeW 7 stWv = (stWv, false) ∧
    ((expandFromSearchResultRecursively envW 1 treeW 7 stW).1.visited).Nodup :=
  ⟨(expandRecursionGuards envW 0 treeW 7 stW).1,
   (expandRecursionGuards envW 0 treeW 7 stWv).2.1 (by decide),
   (expandRecursionGuards envW 1 treeW 7 stW).2.2.2 (by decide)⟩

/-- C9: whenever a trace book is supplied together with a positive
iteration count, genbook stops with a thrown error (the mutual-exclusion
error at genbook.cpp line 368, or the parameter-mismatch error at line 290
which comes even earlier) and none of the book-mutating operations
(setBonusByHash, recomputeEverything, the trace splice, the expansion
loop, the final save) is ever reached. -/
theorem traceWithIterationsFailsBeforeMutation
    (bookFileExists bookParamsDiffer allowChangingBookParams : Bool) (numIterations : Nat)
    (hn : 0 < numIterations) :
    (∀ e ∈ genbookMainFlow bookFileExists bookParamsDiffer allowChangingBookParams true
        numIterations, mutatesBookGraph e = false) ∧
    ((genbookMainFlow bookFileExists bookParamsDiffer allowChangingBookParams true
        numIterations).getLast? = some GEvent.errorTraceWithIterations ∨
     (genbookMainFlow bookFileExists bookParamsDiffer allowChangingBookParams true
        numIterations).getLast? = some GEvent.errorBookParamsMismatch) := by
  have hd : decide (0 < numIterations) = true := decide_eq_true hn
  cases bookFileExists <;> cases bookParamsDiffer <;> cases allowChangingBookParams <;>
    simp [genbookMainFlow, hd, mutatesBookGraph]

/-- C9 witness: a preexisting book with matching parameters, a trace book
and 3 iterations. -/
theorem traceWithIterationsFailsBeforeMutation_witness :
    (∀ e ∈ genbookMainFlow true false false true 3, mutatesBookGraph e = false) ∧
    ((genbookMainFlow true false false true 3).getLast? =
        some GEvent.errorTraceWithIterations ∨
     (genbookMainFlow true false false true 3).getLast? =
        some GEvent.errorBookParamsMismatch) :=
  traceWithIterationsFailsBeforeMutation true false false 3 (by decide)

/-- C10 counterexample: the claim as stated is false.  The CLI accepts the
flag value 0 (no lower bound is imposed at genbook.cpp line 71), and with
it the cadence check at line 1164 evaluates a remainder by zero already at
the first iteration it runs on. -/
theorem saveCadenceClaim_false : ¬ saveCadenceNeverDividesByZero := by
  intro hclaim
  exact hclaim 0 rfl 1 (by decide) rfl

/-- C10 (amended): the save-cadence check divides by zero exactly when the
flag value is 0 - a value the CLI accepts; for every nonzero flag value it
evaluates without dividing by zero on every iteration. -/
theorem saveCadenceDividesByZeroIffFlagZero (i : Nat) (v : Int) :
    (v ≠ 0 → saveCadenceCheck i v ≠ none) ∧
    saveCadenceCheck i 0 = none ∧
    cliAcceptsSaveEvery 0 = true := by
  refine ⟨fun hv => ?_, rfl, rfl⟩
  simp [saveCadenceCheck, hv]

/-- C10 witness: iteration 1 with flag value 2 evaluates; flag value 0 is
accepted and does not. -/
theorem saveCadenceDividesByZeroIffFlagZero_witness :
    saveCadenceCheck 1 2 ≠ none ∧ saveCadenceCheck 1 0 = none ∧
    cliAcceptsSaveEvery 0 = true :=
  ⟨(saveCadenceDividesByZeroIffFlagZero 1 2).1 (by decide),
   (saveCadenceDividesByZeroIffFlagZero 1 2).2.1,
   (saveCadenceDividesByZeroIffFlagZero 1 2).2.2⟩
